import Mathlib

/-!
Verification development for the academic-records tracker.

The Python source is shallowly embedded: the relational store becomes an
explicit `DB` structure of record lists, fallible operations return
`Except`-style results paired with the post-state, `transaction.atomic`
becomes "on error the original state is returned", and Python float
arithmetic over scores/percentages is modelled with `ℚ` (the values the
code manipulates are small decimal fractions).  Python's `round(x, n)`
(round-half-to-even) is modelled by `roundHalfEven`.
-/

/-- Python `round` to an integer: round half to even (banker's rounding). -/
def roundHalfEven (q : ℚ) : ℤ :=
  if q - (Int.floor q : ℚ) < 1/2 then Int.floor q
  else if 1/2 < q - (Int.floor q : ℚ) then Int.floor q + 1
  else if Int.floor q % 2 = 0 then Int.floor q else Int.floor q + 1

/-- Python `round(x, 2)` on our rational model. -/
def round2 (q : ℚ) : ℚ := (roundHalfEven (q * 100) : ℚ) / 100

/-- Python `round(x, 1)` on our rational model. -/
def round1 (q : ℚ) : ℚ := (roundHalfEven (q * 10) : ℚ) / 10

theorem roundHalfEven_nonneg (q : ℚ) (hq : 0 ≤ q) : 0 ≤ roundHalfEven q := by
  unfold roundHalfEven
  have h0 : (0 : ℤ) ≤ Int.floor q := Int.le_floor.mpr (by exact_mod_cast hq)
  split
  · exact h0
  · split
    · omega
    · split <;> omega

theorem round2_nonneg (q : ℚ) (hq : 0 ≤ q) : 0 ≤ round2 q := by
  unfold round2
  have h := roundHalfEven_nonneg (q * 100) (by positivity)
  positivity

theorem roundHalfEven_intCast (n : ℤ) : roundHalfEven (n : ℚ) = n := by
  unfold roundHalfEven
  rw [Int.floor_intCast]
  norm_num

/-! ## Data model (from `users`, `grades/models.py`, `courses/models.py`,
`outcomes/models.py`) -/

structure UserRec where
  id : Nat
  role : String
deriving DecidableEq, Repr

/-- Model of a `Grade` row: unique on (student, course, learning_outcome); `created_at`
is set on insert and never changed, `updated_at` on every save. -/
structure GradeRec where
  studentId : Nat
  courseId : Nat
  loId : Nat
  score : Int
  createdAt : Nat
  updatedAt : Nat
deriving DecidableEq, Repr

/-- Model of an `Attendance` row: unique on (student, course, date). -/
structure AttendanceRec where
  studentId : Nat
  courseId : Nat
  date : Nat
  status : String
deriving DecidableEq, Repr

/-- Model of a `ContributionRate` row: LO → PO weighting edge. -/
structure ContributionRateRec where
  loId : Nat
  poId : Nat
  percentage : Int
deriving DecidableEq, Repr

structure ProgramOutcomeRec where
  id : Nat
  code : String
deriving DecidableEq, Repr

/-- Model of a `GradeAuditLog` row (append-only). `filters_applied` is kept structured:
the optional course filter and the optional created-at range. -/
structure AuditLogRec where
  accessedById : Nat
  snapshotTime : Nat
  reportType : String
  courseFilter : Option Nat
  dateRange : Option (Nat × Nat)
  recordsCount : Nat
deriving DecidableEq, Repr

/-- The relational store. -/
structure DB where
  users : List UserRec
  grades : List GradeRec
  attendances : List AttendanceRec
  auditLogs : List AuditLogRec
  programOutcomes : List ProgramOutcomeRec
  contributionRates : List ContributionRateRec
deriving Repr

/-! ## Grade audit snapshot reporter (`grades/utils.py`,
`generate_grade_audit_report`) -/

/-- The queryset predicate: `created_at <= snapshot_time`, then the optional
`course_id` filter, then the optional `created_at` range filter. -/
def gradeInSnapshot (snapshotTime : Nat) (courseFilter : Option Nat)
    (dateRange : Option (Nat × Nat)) (g : GradeRec) : Bool :=
  g.createdAt ≤ snapshotTime &&
    (match courseFilter with
     | none => true
     | some c => g.courseId == c) &&
    (match dateRange with
     | none => true
     | some (s, e) => s ≤ g.createdAt && g.createdAt ≤ e)

structure ReportSummary where
  total_grades : Nat
  total_students : Nat
  total_courses : Nat
  average_score : ℚ
deriving Repr

structure ReportResult where
  grades : List GradeRec
  snapshot_time : Nat
  audit_log : AuditLogRec
  summary : ReportSummary
deriving Repr

/-- Embedding of `generate_grade_audit_report`: permission check first; inside one
transaction, materialise the filtered grade list, compute the summary and
append one audit-log row.  Errors return the pre-call state (nothing was
written).  The source's `order_by` only reorders the result list and is not
modelled (no claim depends on ordering). -/
def generate_grade_audit_report (db : DB) (user : UserRec) (snapshotTime : Nat)
    (courseFilter : Option Nat) (dateRange : Option (Nat × Nat)) :
    Except String ReportResult × DB :=
  if user.role ≠ "department_head" then
    (Except.error "Only department heads can generate audit reports", db)
  else
    let gradesList := db.grades.filter (gradeInSnapshot snapshotTime courseFilter dateRange)
    let totalGrades := gradesList.length
    let totalStudents := ((gradesList.map (·.studentId)).dedup).length
    let totalCourses := ((gradesList.map (·.courseId)).dedup).length
    let avgScore : ℚ :=
      if totalGrades > 0 then ((gradesList.map (fun g => (g.score : ℚ))).sum) / totalGrades else 0
    let log : AuditLogRec :=
      { accessedById := user.id
        snapshotTime := snapshotTime
        reportType := "grade_audit"
        courseFilter := courseFilter
        dateRange := dateRange
        recordsCount := totalGrades }
    (Except.ok
      { grades := gradesList
        snapshot_time := snapshotTime
        audit_log := log
        summary :=
          { total_grades := totalGrades
            total_students := totalStudents
            total_courses := totalCourses
            average_score := round2 avgScore } },
     { db with auditLogs := db.auditLogs ++ [log] })

/-- A score update through the ORM: `auto_now_add` leaves `created_at`
untouched; only `score` and `updated_at` change. -/
def updateGradeScore (db : DB) (sid cid loId : Nat) (newScore : Int) (now : Nat) : DB :=
  { db with
    grades := db.grades.map (fun g =>
      if g.studentId == sid && g.courseId == cid && g.loId == loId then
        { g with score := newScore, updatedAt := now }
      else g) }

/-! ## Bulk attendance upsert (`courses/forms.py` `save_attendance`,
`courses/views.py` `sync_attendance_api`, `courses/models.py`
`Attendance.save`/`Attendance.clean`) -/

def validStatuses : List String := ["Present", "Absent", "Late"]

/-- Embedding of `User.objects.get(id=student_id, role='student')`; `none` models
`User.DoesNotExist`. -/
def findStudent (users : List UserRec) (sid : Nat) : Option UserRec :=
  users.find? (fun u => u.id == sid && u.role == "student")

/-- The `Attendance.clean` enrollment check: a Grade row exists for the
(student, course) pair. -/
def isEnrolled (grades : List GradeRec) (sid cid : Nat) : Bool :=
  grades.any (fun g => g.studentId == sid && g.courseId == cid)

def attendanceKeyMatches (sid cid date : Nat) (a : AttendanceRec) : Bool :=
  a.studentId == sid && a.courseId == cid && a.date == date

/-- Embedding of `Attendance.objects.update_or_create(student=..., course=..., date=...,
defaults={'status': status})`.  Both its create and its update path go
through `Attendance.save`, which runs `full_clean`: the status must be one
of the model's choices and the student must be enrolled (`Attendance.clean`),
else a `ValidationError` is raised (modelled as `Except.error`).  Returns the
new attendance table and `created`. -/
def attendanceUpdateOrCreate (db : DB) (sid cid date : Nat) (status : String) :
    Except String (DB × Bool) :=
  if ¬ (validStatuses.contains status) then
    Except.error "ValidationError: status not a valid choice"
  else if ¬ isEnrolled db.grades sid cid then
    Except.error "ValidationError: student is not enrolled in course"
  else if db.attendances.any (attendanceKeyMatches sid cid date) then
    Except.ok
      ({ db with
          attendances := db.attendances.map (fun a =>
            if attendanceKeyMatches sid cid date a then { a with status := status } else a) },
       false)
  else
    Except.ok
      ({ db with
          attendances := db.attendances ++ [⟨sid, cid, date, status⟩] }, true)

/-- Outcome of the loop inside a transaction: success with the post-state and
counters, or an error message with the counters at the failure point. -/
inductive BatchOutcome where
  | ok (db : DB) (created updated : Nat)
  | err (msg : String) (created updated : Nat)
deriving Repr

/-- The loop body of `save_attendance`: per entry, resolve the student (else
`ValueError`), check the status against the hardcoded list (else
`ValidationError`), then `update_or_create` (whose save can itself raise). -/
def formBatchLoop (db : DB) (cid date : Nat) :
    List (Nat × String) → Nat → Nat → BatchOutcome
  | [], created, updated => .ok db created updated
  | (sid, status) :: rest, created, updated =>
    match findStudent db.users sid with
    | none => .err "Student not found" created updated
    | some _ =>
      if ¬ (validStatuses.contains status) then
        .err "Invalid status" created updated
      else
        match attendanceUpdateOrCreate db sid cid date status with
        | .error e => .err e created updated
        | .ok (db', created?) =>
          if created? then formBatchLoop db' cid date rest (created + 1) updated
          else formBatchLoop db' cid date rest created (updated + 1)

/-- Result quadruple of `save_attendance`:
(success, created_count, updated_count, error_message). -/
structure SaveResult where
  success : Bool
  created : Nat
  updated : Nat
  errorMessage : Option String
deriving DecidableEq, Repr

/-- Embedding of `AttendanceForm.save_attendance`: the whole batch inside one
`transaction.atomic` block; any exception rolls the store back to the
pre-batch state and is converted into a `(False, …, error_message)` return
instead of propagating to the caller. -/
def save_attendance (db : DB) (cid date : Nat) (attendanceData : List (Nat × String)) :
    SaveResult × DB :=
  match formBatchLoop db cid date attendanceData 0 0 with
  | .ok db' created updated => (⟨true, created, updated, none⟩, db')
  | .err msg created updated => (⟨false, created, updated, some msg⟩, db)

/-- An entry of the JSON body's `attendance_data`: the key is a string that
`int(...)` may fail to parse (`none`), the value is the status string. -/
def syncEntryValid (users : List UserRec) (entry : Option Nat × String) : Bool :=
  match entry.1 with
  | none => false
  | some sid => validStatuses.contains entry.2 && (findStudent users sid).isSome

/-- The loop inside `sync_attendance_api`'s transaction: unparseable ids,
invalid statuses and unknown students are skipped with `continue`; a write
error (e.g. the enrollment `ValidationError` out of `Attendance.save`)
escapes the loop. -/
def syncBatchLoop (db : DB) (cid date : Nat) :
    List (Option Nat × String) → Nat → Nat → BatchOutcome
  | [], created, updated => .ok db created updated
  | (sidStr, status) :: rest, created, updated =>
    match sidStr with
    | none => syncBatchLoop db cid date rest created updated
    | some sid =>
      if ¬ (validStatuses.contains status) then
        syncBatchLoop db cid date rest created updated
      else
        match findStudent db.users sid with
        | none => syncBatchLoop db cid date rest created updated
        | some _ =>
          match attendanceUpdateOrCreate db sid cid date status with
          | .error e => .err e created updated
          | .ok (db', created?) =>
            if created? then syncBatchLoop db' cid date rest (created + 1) updated
            else syncBatchLoop db' cid date rest created (updated + 1)

/-- JSON response of the sync endpoint (success body or a 500 error body). -/
inductive ApiResponse where
  | success (created updated : Nat)
  | databaseError (msg : String)
deriving DecidableEq, Repr

/-- Embedding of `sync_attendance_api` after auth/role/method/body checks: run the batch
inside `transaction.atomic`; an exception rolls back and is answered with an
HTTP 500 `Database error` body, success answers with the created/updated
counts. -/
def sync_attendance_api (db : DB) (cid date : Nat)
    (attendanceData : List (Option Nat × String)) : ApiResponse × DB :=
  match syncBatchLoop db cid date attendanceData 0 0 with
  | .ok db' created updated => (.success created updated, db')
  | .err msg _ _ => (.databaseError msg, db)

/-! ## Outcome score aggregator (`outcomes/utils.py` `calculate_po_scores`) -/

/-- Embedding of `grades.filter(learning_outcome=cr.learning_outcome).first()` over the
student's grades. -/
def gradeForLO (studentGrades : List GradeRec) (loId : Nat) : Option GradeRec :=
  studentGrades.find? (fun g => g.loId == loId)

/-- One iteration of the per-PO loop: add the weighted score and the weight
when the student has a grade for the edge's LO, else leave both untouched. -/
def poStep (studentGrades : List GradeRec) (acc : ℚ × ℚ) (cr : ContributionRateRec) : ℚ × ℚ :=
  match gradeForLO studentGrades cr.loId with
  | some g => (acc.1 + (g.score : ℚ) * ((cr.percentage : ℚ) / 100),
               acc.2 + (cr.percentage : ℚ) / 100)
  | none => acc

/-- The per-PO accumulation loop: running (po_score, total_weight). -/
def poFold (studentGrades : List GradeRec) (crs : List ContributionRateRec) : ℚ × ℚ :=
  crs.foldl (poStep studentGrades) (0, 0)

/-- Embedding of `calculate_po_scores`: non-students get an empty map; otherwise, for each PO, the
weighted sum over its contribution edges, capped at 100 when any weight
accumulated, 0 otherwise, rounded to 2 decimals. -/
def calculate_po_scores (db : DB) (student : UserRec) : List (String × ℚ) :=
  if student.role ≠ "student" then []
  else
    db.programOutcomes.map (fun po =>
      let studentGrades := db.grades.filter (fun g => g.studentId == student.id)
      let crs := db.contributionRates.filter (fun cr => cr.poId == po.id)
      let acc := poFold studentGrades crs
      let finalScore : ℚ := if acc.2 > 0 then min acc.1 100 else 0
      (po.code, round2 finalScore))

/-! ## Attendance percentage calculator (`grades/views.py`
`calculate_attendance_percentage` and the overall rate computed inline in
`student_attendance`) -/

/-- Embedding of `calculate_attendance_percentage`: `(Present + 0.5*Late) / total * 100`
rounded to 1 decimal; an empty (or absent) input returns 0.0 without
dividing. -/
def calculate_attendance_percentage (attendances : List AttendanceRec) : ℚ :=
  if attendances.isEmpty then 0
  else
    round1 ((((attendances.filter (fun a => a.status == "Present")).length : ℚ) +
      (1/2) * ((attendances.filter (fun a => a.status == "Late")).length : ℚ)) /
      (attendances.length : ℚ) * 100)

/-- The overall "attendance rate" computed inline in the `student_attendance`
view: `(Present + Late) / total * 100` rounded to 1 decimal, 0.0 when there
are no records (full credit for Late, unlike the helper above). -/
def studentAttendanceOverallRate (attendances : List AttendanceRec) : ℚ :=
  if attendances.length > 0 then
    round1 ((((attendances.filter (fun a => a.status == "Present")).length : ℚ) +
      ((attendances.filter (fun a => a.status == "Late")).length : ℚ)) /
      (attendances.length : ℚ) * 100)
  else 0

/-! ## Concrete instances used by witnesses -/

def emptyDB : DB := ⟨[], [], [], [], [], []⟩

def dhUser : UserRec := ⟨10, "department_head"⟩

def sampleGrade : GradeRec := ⟨1, 2, 3, 85, 5, 5⟩

def auditDB : DB := ⟨[dhUser, ⟨1, "student"⟩], [sampleGrade], [], [], [], []⟩

/-! ## Theorems -/

/-- C7: a caller whose role is not `department_head` is rejected with the
permission error before any grade is read and before any audit-log row is
written: the call returns the error and the store completely unchanged. -/
theorem audit_report_rejects_unprivileged_before_read (db : DB) (u : UserRec)
    (hrole : u.role ≠ "department_head") (T : Nat) (cf : Option Nat)
    (dr : Option (Nat × Nat)) :
    generate_grade_audit_report db u T cf dr =
      (Except.error "Only department heads can generate audit reports", db) := by
  unfold generate_grade_audit_report
  simp [hrole]

theorem audit_report_rejects_unprivileged_before_read_witness :
    (⟨1, "student"⟩ : UserRec).role ≠ "department_head" ∧
    generate_grade_audit_report emptyDB ⟨1, "student"⟩ 0 none none =
      (Except.error "Only department heads can generate audit reports", emptyDB) :=
  ⟨by decide,
   audit_report_rejects_unprivileged_before_read emptyDB ⟨1, "student"⟩ (by decide) 0 none none⟩

/-- C1: the result set of `generate_grade_audit_report` is exactly the grades
with `created_at ≤ T`, narrowed only by the optional course and
creation-range filters; hence a grade created in `(T1, T2]` is in the T2
report but absent from the T1 report's result set and count, while a grade
created at or before T1 whose score is updated later is in the T1 report and
(with its new score) in the T2 report over the updated store. -/
theorem snapshot_report_contains_exactly_grades_at_or_before_snapshot
    (db : DB) (u : UserRec) (hrole : u.role = "department_head")
    (T T1 T2 : Nat) (hT12 : T1 < T2) (cf : Option Nat) (dr : Option (Nat × Nat)) :
    (∃ r, (generate_grade_audit_report db u T cf dr).1 = Except.ok r ∧
      (∀ g, g ∈ r.grades ↔ g ∈ db.grades ∧ g.createdAt ≤ T ∧
        (∀ c, cf = some c → g.courseId = c) ∧
        (∀ s e, dr = some (s, e) → s ≤ g.createdAt ∧ g.createdAt ≤ e)) ∧
      r.audit_log.recordsCount = r.grades.length) ∧
    (∀ gNew ∈ db.grades, T1 < gNew.createdAt → gNew.createdAt ≤ T2 →
      ∃ r1 r2, (generate_grade_audit_report db u T1 none none).1 = Except.ok r1 ∧
        (generate_grade_audit_report db u T2 none none).1 = Except.ok r2 ∧
        gNew ∈ r2.grades ∧ gNew ∉ r1.grades ∧
        r1.audit_log.recordsCount = r1.grades.length) ∧
    (∀ gOld ∈ db.grades, gOld.createdAt ≤ T1 → ∀ s now,
      (∃ r1, (generate_grade_audit_report db u T1 none none).1 = Except.ok r1 ∧
        gOld ∈ r1.grades) ∧
      (∃ r2, (generate_grade_audit_report
          (updateGradeScore db gOld.studentId gOld.courseId gOld.loId s now)
          u T2 none none).1 = Except.ok r2 ∧
        { gOld with score := s, updatedAt := now } ∈ r2.grades)) := by
  have hne : ¬ (u.role ≠ "department_head") := by simp [hrole]
  simp only [generate_grade_audit_report, if_neg hne]
  refine ⟨⟨_, rfl, ?_, rfl⟩, ?_, ?_⟩
  · intro g
    rw [List.mem_filter]
    unfold gradeInSnapshot
    constructor
    · rintro ⟨hg, hp⟩
      simp only [Bool.and_eq_true, decide_eq_true_eq] at hp
      refine ⟨hg, hp.1.1, ?_, ?_⟩
      · intro c hc
        subst hc
        simpa using hp.1.2
      · intro s e hse
        subst hse
        simpa using hp.2
    · rintro ⟨hg, hT, hc, hse⟩
      refine ⟨hg, ?_⟩
      simp only [Bool.and_eq_true, decide_eq_true_eq]
      refine ⟨⟨hT, ?_⟩, ?_⟩
      · cases cf with
        | none => simp
        | some c => simpa using hc c rfl
      · cases dr with
        | none => simp
        | some p => simpa using hse p.1 p.2 rfl
  · intro gNew hmem h1 h2
    refine ⟨_, _, rfl, rfl, ?_, ?_, rfl⟩
    · simp only [List.mem_filter]
      exact ⟨hmem, by simp [gradeInSnapshot, h2]⟩
    · simp only [List.mem_filter]
      rintro ⟨-, hp⟩
      simp only [gradeInSnapshot, Bool.and_eq_true, decide_eq_true_eq] at hp
      omega
  · intro gOld hmem hle s now
    constructor
    · refine ⟨_, rfl, ?_⟩
      simp only [List.mem_filter]
      exact ⟨hmem, by simp [gradeInSnapshot, hle]⟩
    · refine ⟨_, rfl, ?_⟩
      simp only [List.mem_filter]
      constructor
      · show _ ∈ (updateGradeScore db _ _ _ s now).grades
        unfold updateGradeScore
        simp only [List.mem_map]
        exact ⟨gOld, hmem, by simp⟩
      · simp [gradeInSnapshot]
        omega

theorem snapshot_report_contains_exactly_grades_at_or_before_snapshot_witness :
    dhUser.role = "department_head" ∧ (2 : Nat) < 10 ∧
    (∃ r, (generate_grade_audit_report auditDB dhUser 2 none none).1 = Except.ok r ∧
      sampleGrade ∉ r.grades ∧ r.audit_log.recordsCount = r.grades.length) ∧
    (∃ r, (generate_grade_audit_report auditDB dhUser 10 none none).1 = Except.ok r ∧
      sampleGrade ∈ r.grades) := by
  have h := snapshot_report_contains_exactly_grades_at_or_before_snapshot auditDB dhUser rfl
    10 2 10 (by decide) none none
  obtain ⟨-, hscen, -⟩ := h
  obtain ⟨r1, r2, h1, h2, hin, hout, hcount⟩ :=
    hscen sampleGrade (by simp [auditDB]) (by decide) (by decide)
  exact ⟨rfl, by decide, ⟨r1, h1, hout, hcount⟩, ⟨r2, h2, hin⟩⟩

/-- C2: a normal (department-head) invocation of `generate_grade_audit_report`
appends exactly one `GradeAuditLog` row inside the same transaction as the
read, and that row records the snapshot time, the filters and a
`records_count` equal both to the length of the returned grade list and to
the summary's `total_grades`; no other table is touched. -/
theorem audit_report_appends_one_log_row_matching_count
    (db : DB) (u : UserRec) (hrole : u.role = "department_head")
    (T : Nat) (cf : Option Nat) (dr : Option (Nat × Nat)) :
    ∃ r, (generate_grade_audit_report db u T cf dr).1 = Except.ok r ∧
      (generate_grade_audit_report db u T cf dr).2.auditLogs =
        db.auditLogs ++ [r.audit_log] ∧
      r.audit_log.recordsCount = r.grades.length ∧
      r.audit_log.recordsCount = r.summary.total_grades ∧
      r.audit_log.snapshotTime = T ∧
      r.audit_log.courseFilter = cf ∧
      r.audit_log.dateRange = dr ∧
      r.audit_log.accessedById = u.id ∧
      (generate_grade_audit_report db u T cf dr).2.grades = db.grades ∧
      (generate_grade_audit_report db u T cf dr).2.attendances = db.attendances ∧
      (generate_grade_audit_report db u T cf dr).2.users = db.users := by
  have hne : ¬ (u.role ≠ "department_head") := by simp [hrole]
  simp only [generate_grade_audit_report, if_neg hne]
  refine ⟨_, rfl, ?_⟩
  simp

theorem audit_report_appends_one_log_row_matching_count_witness :
    dhUser.role = "department_head" ∧
    ∃ r, (generate_grade_audit_report auditDB dhUser 10 none none).1 = Except.ok r ∧
      (generate_grade_audit_report auditDB dhUser 10 none none).2.auditLogs =
        auditDB.auditLogs ++ [r.audit_log] ∧
      r.audit_log.recordsCount = r.grades.length := by
  obtain ⟨r, h1, h2, h3, -⟩ :=
    audit_report_appends_one_log_row_matching_count auditDB dhUser rfl 10 none none
  exact ⟨rfl, r, h1, h2, h3⟩

/-! ## Lemmas about the upsert step and the batch loops -/

theorem auoc_ok_facts (db : DB) (sid cid date : Nat) (st : String) (db' : DB) (c? : Bool)
    (h : attendanceUpdateOrCreate db sid cid date st = .ok (db', c?)) :
    db'.users = db.users ∧ db'.grades = db.grades ∧
    validStatuses.contains st = true ∧ isEnrolled db.grades sid cid = true ∧
    ((c? = false ∧ db.attendances.any (attendanceKeyMatches sid cid date) = true ∧
      db'.attendances = db.attendances.map (fun a =>
        if attendanceKeyMatches sid cid date a then { a with status := st } else a)) ∨
     (c? = true ∧ db.attendances.any (attendanceKeyMatches sid cid date) = false ∧
      db'.attendances = db.attendances ++ [⟨sid, cid, date, st⟩])) := by
  unfold attendanceUpdateOrCreate at h
  split at h
  next hst => simp at h
  next hst =>
    split at h
    next hen => simp at h
    next hen =>
      split at h
      next hkey =>
        cases h
        refine ⟨rfl, rfl, ?_, ?_, Or.inl ⟨rfl, hkey, rfl⟩⟩
        · simpa using hst
        · simpa using hen
      next hkey =>
        cases h
        refine ⟨rfl, rfl, ?_, ?_, Or.inr ⟨rfl, ?_, rfl⟩⟩
        · simpa using hst
        · simpa using hen
        · simpa using hkey

theorem auoc_err_unenrolled (db : DB) (sid cid date : Nat) (st : String)
    (hst : validStatuses.contains st = true) (hen : isEnrolled db.grades sid cid = false) :
    attendanceUpdateOrCreate db sid cid date st =
      .error "ValidationError: student is not enrolled in course" := by
  unfold attendanceUpdateOrCreate
  rw [if_neg (not_not_intro hst), if_pos (by simp [hen])]

/-- An entry on which the form batch must fail: unknown/non-student id,
invalid status, or the enrollment `ValidationError` raised by
`Attendance.save` (the "store error mid-batch"). -/
def formEntryFails (db : DB) (cid : Nat) (e : Nat × String) : Bool :=
  (findStudent db.users e.1).isNone || !(validStatuses.contains e.2) ||
    !(isEnrolled db.grades e.1 cid)

theorem formBatchLoop_err_of_bad (cid date : Nat) :
    ∀ (data : List (Nat × String)) (db : DB) (c u : Nat),
      (∃ e ∈ data, formEntryFails db cid e = true) →
      ∃ msg c' u', formBatchLoop db cid date data c u = .err msg c' u' := by
  intro data
  induction data with
  | nil => intro db c u h; simp at h
  | cons hd rest ih =>
    intro db c u h
    obtain ⟨sid, st⟩ := hd
    unfold formBatchLoop
    cases hfs : findStudent db.users sid with
    | none => exact ⟨_, _, _, rfl⟩
    | some stu =>
      by_cases hst : validStatuses.contains st = true
      · rw [if_neg (not_not_intro hst)]
        cases hauoc : attendanceUpdateOrCreate db sid cid date st with
        | error e => exact ⟨_, _, _, rfl⟩
        | ok pr =>
          obtain ⟨db', c?⟩ := pr
          obtain ⟨hus, hgr, -, hen, -⟩ := auoc_ok_facts db sid cid date st db' c? hauoc
          have hrest : ∃ e ∈ rest, formEntryFails db' cid e = true := by
            obtain ⟨e, he, hf⟩ := h
            rcases List.mem_cons.mp he with heq | hmem
            · subst heq
              have hst' : st ∈ validStatuses := by simpa using hst
              simp [formEntryFails, hfs, hst', hen] at hf
            · exact ⟨e, hmem, by rw [formEntryFails, hus, hgr]; exact hf⟩
          cases c? with
          | false => simpa using ih db' c (u + 1) hrest
          | true => simpa using ih db' (c + 1) u hrest
      · rw [if_pos hst]
        exact ⟨_, _, _, rfl⟩

/-- C3: a form-path bulk attendance batch containing any failing entry
(unknown or non-student id, status outside the valid set, or the
mid-batch store error raised by the enrollment check) leaves the store
exactly in its pre-batch state and returns a failure flag plus an error
message instead of raising. -/
theorem save_attendance_rolls_back_whole_batch_on_any_failure
    (db : DB) (cid date : Nat) (data : List (Nat × String))
    (h : ∃ e ∈ data, formEntryFails db cid e = true) :
    (save_attendance db cid date data).1.success = false ∧
    (save_attendance db cid date data).2 = db ∧
    ∃ msg, (save_attendance db cid date data).1.errorMessage = some msg := by
  obtain ⟨msg, c', u', hloop⟩ := formBatchLoop_err_of_bad cid date data db 0 0 h
  unfold save_attendance
  rw [hloop]
  exact ⟨rfl, rfl, msg, rfl⟩

/-- Store with one student (id 1) enrolled in course 2 and no attendance. -/
def attDB : DB := ⟨[⟨1, "student"⟩], [⟨1, 2, 3, 80, 0, 0⟩], [], [], [], []⟩

theorem save_attendance_rolls_back_whole_batch_on_any_failure_witness :
    (∃ e ∈ [((1 : Nat), "Present"), (5, "Present")], formEntryFails attDB 2 e = true) ∧
    (save_attendance attDB 2 7 [(1, "Present"), (5, "Present")]).1.success = false ∧
    (save_attendance attDB 2 7 [(1, "Present"), (5, "Present")]).2 = attDB ∧
    ∃ msg, (save_attendance attDB 2 7 [(1, "Present"), (5, "Present")]).1.errorMessage =
      some msg :=
  ⟨by decide,
   save_attendance_rolls_back_whole_batch_on_any_failure attDB 2 7 _ (by decide)⟩

/-- An entry that makes the sync loop raise out of its per-entry handling:
it parses, has a valid status and resolves to a student, but the student is
not enrolled, so `Attendance.save` raises a `ValidationError`. -/
def syncEntryAborts (db : DB) (cid : Nat) (e : Option Nat × String) : Bool :=
  match e.1 with
  | none => false
  | some sid => validStatuses.contains e.2 && (findStudent db.users sid).isSome &&
      !(isEnrolled db.grades sid cid)

theorem syncBatchLoop_err_of_unenrolled (cid date : Nat) :
    ∀ (data : List (Option Nat × String)) (db : DB) (c u : Nat),
      (∃ e ∈ data, syncEntryAborts db cid e = true) →
      ∃ msg c' u', syncBatchLoop db cid date data c u = .err msg c' u' := by
  intro data
  induction data with
  | nil => intro db c u h; simp at h
  | cons hd rest ih =>
    intro db c u h
    obtain ⟨sidStr, st⟩ := hd
    unfold syncBatchLoop
    cases sidStr with
    | none =>
      apply ih
      obtain ⟨e, he, hf⟩ := h
      rcases List.mem_cons.mp he with heq | hmem
      · subst heq; simp [syncEntryAborts] at hf
      · exact ⟨e, hmem, hf⟩
    | some sid =>
      dsimp only
      by_cases hst : validStatuses.contains st = true
      · rw [if_neg (not_not_intro hst)]
        cases hfs : findStudent db.users sid with
        | none =>
          apply ih
          obtain ⟨e, he, hf⟩ := h
          rcases List.mem_cons.mp he with heq | hmem
          · subst heq; simp [syncEntryAborts, hfs] at hf
          · exact ⟨e, hmem, hf⟩
        | some stu =>
          cases hauoc : attendanceUpdateOrCreate db sid cid date st with
          | error e => exact ⟨_, _, _, rfl⟩
          | ok pr =>
            obtain ⟨db', c?⟩ := pr
            obtain ⟨hus, hgr, -, hen, -⟩ := auoc_ok_facts db sid cid date st db' c? hauoc
            have hrest : ∃ e ∈ rest, syncEntryAborts db' cid e = true := by
              obtain ⟨e, he, hf⟩ := h
              rcases List.mem_cons.mp he with heq | hmem
              · subst heq; simp [syncEntryAborts, hen] at hf
              · refine ⟨e, hmem, ?_⟩
                unfold syncEntryAborts at hf ⊢
                rw [hus, hgr]
                exact hf
            cases c? with
            | false => simpa using ih db' c (u + 1) hrest
            | true => simpa using ih db' (c + 1) u hrest
      · rw [if_pos hst]
        apply ih
        obtain ⟨e, he, hf⟩ := h
        rcases List.mem_cons.mp he with heq | hmem
        · subst heq
          simp [syncEntryAborts] at hf
          exact absurd (by simpa using hf.1.1) hst
        · exact ⟨e, hmem, hf⟩

/-- C10: a batch entry naming a valid student with a valid status but no
grade in the target course is not silently skipped on either path: the
enrollment check in `Attendance.clean` raises inside the transaction, the
whole batch rolls back, the form path returns a failure and the sync API
answers with the database-error (HTTP 500) body. -/
theorem unenrolled_entry_aborts_batch_on_both_paths
    (db : DB) (cid date : Nat) (dataF : List (Nat × String))
    (dataA : List (Option Nat × String)) (sid : Nat) (st : String)
    (hstu : (findStudent db.users sid).isSome = true)
    (hst : validStatuses.contains st = true)
    (henr : isEnrolled db.grades sid cid = false)
    (hinF : (sid, st) ∈ dataF) (hinA : (some sid, st) ∈ dataA) :
    ((save_attendance db cid date dataF).1.success = false ∧
     (save_attendance db cid date dataF).2 = db) ∧
    (∃ msg, (sync_attendance_api db cid date dataA).1 = .databaseError msg ∧
     (sync_attendance_api db cid date dataA).2 = db) := by
  constructor
  · obtain ⟨msg, c', u', hloop⟩ := formBatchLoop_err_of_bad cid date dataF db 0 0
      ⟨(sid, st), hinF, by simp [formEntryFails, henr]⟩
    unfold save_attendance
    rw [hloop]
    exact ⟨rfl, rfl⟩
  · obtain ⟨msg, c', u', hloop⟩ := syncBatchLoop_err_of_unenrolled cid date dataA db 0 0
      ⟨(some sid, st), hinA, by
        have hst' : st ∈ validStatuses := by simpa using hst
        simp [syncEntryAborts, hstu, hst', henr]⟩
    unfold sync_attendance_api
    rw [hloop]
    exact ⟨msg, rfl, rfl⟩

/-- Store with one student (id 1) and no grades at all: nobody is enrolled. -/
def noGradeDB : DB := ⟨[⟨1, "student"⟩], [], [], [], [], []⟩

theorem unenrolled_entry_aborts_batch_on_both_paths_witness :
    (findStudent noGradeDB.users 1).isSome = true ∧
    validStatuses.contains "Present" = true ∧
    isEnrolled noGradeDB.grades 1 2 = false ∧
    ((save_attendance noGradeDB 2 7 [(1, "Present")]).1.success = false ∧
     (save_attendance noGradeDB 2 7 [(1, "Present")]).2 = noGradeDB) ∧
    (∃ msg, (sync_attendance_api noGradeDB 2 7 [(some 1, "Present")]).1 =
        .databaseError msg ∧
     (sync_attendance_api noGradeDB 2 7 [(some 1, "Present")]).2 = noGradeDB) := by
  refine ⟨by decide, by decide, by decide, ?_⟩
  exact unenrolled_entry_aborts_batch_on_both_paths noGradeDB 2 7 [(1, "Present")]
    [(some 1, "Present")] 1 "Present" (by decide) (by decide) (by decide)
    (by decide) (by decide)

theorem keyMatches_status_update (s c d : Nat) (a : AttendanceRec) (st : String) :
    attendanceKeyMatches s c d { a with status := st } = attendanceKeyMatches s c d a := rfl

theorem any_key_map_status (l : List AttendanceRec) (sid cid date : Nat) (st : String)
    (s c d : Nat) :
    ((l.map (fun a =>
        if attendanceKeyMatches sid cid date a then { a with status := st } else a)).any
      (attendanceKeyMatches s c d)) = l.any (attendanceKeyMatches s c d) := by
  induction l with
  | nil => rfl
  | cons a t ih =>
    simp only [List.map_cons, List.any_cons, ih]
    congr 1
    by_cases hm : attendanceKeyMatches sid cid date a = true
    · rw [if_pos hm, keyMatches_status_update]
    · rw [if_neg hm]

theorem auoc_update_of_key_exists (db : DB) (sid cid date : Nat) (st : String)
    (hst : validStatuses.contains st = true) (hen : isEnrolled db.grades sid cid = true)
    (hkey : db.attendances.any (attendanceKeyMatches sid cid date) = true) :
    attendanceUpdateOrCreate db sid cid date st =
      .ok ({ db with attendances := db.attendances.map (fun a =>
        if attendanceKeyMatches sid cid date a then { a with status := st } else a) },
        false) := by
  unfold attendanceUpdateOrCreate
  rw [if_neg (not_not_intro hst), if_neg (by simp [hen]), if_pos hkey]

/-- Invariants of a successful form-path batch: users and grades are
untouched, existing attendance keys survive, and every submitted entry was
fully validated and has its key present afterwards. -/
theorem formBatchLoop_ok_invariants (cid date : Nat) :
    ∀ (data : List (Nat × String)) (db : DB) (c u : Nat) (db' : DB) (c' u' : Nat),
      formBatchLoop db cid date data c u = .ok db' c' u' →
      db'.users = db.users ∧ db'.grades = db.grades ∧
      (∀ s c0 d0, db.attendances.any (attendanceKeyMatches s c0 d0) = true →
        db'.attendances.any (attendanceKeyMatches s c0 d0) = true) ∧
      (∀ e ∈ data, (findStudent db.users e.1).isSome = true ∧
        validStatuses.contains e.2 = true ∧ isEnrolled db.grades e.1 cid = true ∧
        db'.attendances.any (attendanceKeyMatches e.1 cid date) = true) := by
  intro data
  induction data with
  | nil =>
    intro db c u db' c' u' h
    cases h
    exact ⟨rfl, rfl, fun _ _ _ hp => hp, by simp⟩
  | cons hd rest ih =>
    intro db c u db' c' u' h
    obtain ⟨sid, st⟩ := hd
    unfold formBatchLoop at h
    split at h
    · exact BatchOutcome.noConfusion h
    next stu hfs =>
      split at h
      · exact BatchOutcome.noConfusion h
      next hst =>
        split at h
        · exact BatchOutcome.noConfusion h
        next db'' c? hauoc =>
          obtain ⟨hus, hgr, hstv, hen, hbranch⟩ :=
            auoc_ok_facts db sid cid date st db'' c? hauoc
          have hkeypres : ∀ s c0 d0,
              db.attendances.any (attendanceKeyMatches s c0 d0) = true →
              db''.attendances.any (attendanceKeyMatches s c0 d0) = true := by
            intro s c0 d0 hp
            rcases hbranch with ⟨-, -, hatt⟩ | ⟨-, -, hatt⟩
            · rw [hatt, any_key_map_status]; exact hp
            · rw [hatt, List.any_append, hp]; rfl
          have hkeyself :
              db''.attendances.any (attendanceKeyMatches sid cid date) = true := by
            rcases hbranch with ⟨-, hkey, hatt⟩ | ⟨-, -, hatt⟩
            · rw [hatt, any_key_map_status]; exact hkey
            · rw [hatt, List.any_append]
              have : attendanceKeyMatches sid cid date ⟨sid, cid, date, st⟩ = true := by
                simp [attendanceKeyMatches]
              simp [List.any_cons, this]
          have hrec : formBatchLoop db'' cid date rest (if c? then c + 1 else c)
              (if c? then u else u + 1) = .ok db' c' u' := by
            cases c? with
            | false => simpa using h
            | true => simpa using h
          obtain ⟨ih1, ih2, ih3, ih4⟩ := ih db'' _ _ db' c' u' hrec
          refine ⟨ih1.trans hus, ih2.trans hgr, fun s c0 d0 hp => ih3 s c0 d0 (hkeypres s c0 d0 hp), ?_⟩
          intro e he
          rcases List.mem_cons.mp he with heq | hmem
          · subst heq
            exact ⟨by simp [hfs], hstv, hen, ih3 _ _ _ hkeyself⟩
          · obtain ⟨g1, g2, g3, g4⟩ := ih4 e hmem
            rw [hus] at g1
            rw [hgr] at g3
            exact ⟨g1, g2, g3, g4⟩

/-- Re-running a batch whose entries are all validated and whose keys all
already exist: every entry takes the update path, so the run succeeds with
`created` untouched, `updated` increased by the batch size, and the
attendance table's length, users and grades unchanged. -/
theorem formBatchLoop_all_update (cid date : Nat) :
    ∀ (data : List (Nat × String)) (db : DB) (c u : Nat),
      (∀ e ∈ data, (findStudent db.users e.1).isSome = true ∧
        validStatuses.contains e.2 = true ∧ isEnrolled db.grades e.1 cid = true ∧
        db.attendances.any (attendanceKeyMatches e.1 cid date) = true) →
      ∃ db', formBatchLoop db cid date data c u = .ok db' c (u + data.length) ∧
        db'.attendances.length = db.attendances.length ∧
        db'.users = db.users ∧ db'.grades = db.grades := by
  intro data
  induction data with
  | nil => intro db c u _; exact ⟨db, rfl, rfl, rfl, rfl⟩
  | cons hd rest ih =>
    intro db c u hall
    obtain ⟨sid, st⟩ := hd
    obtain ⟨hstu, hstv, hen, hkey⟩ := hall (sid, st) (List.mem_cons_self _ _)
    obtain ⟨stu, hfs⟩ := Option.isSome_iff_exists.mp hstu
    unfold formBatchLoop
    rw [hfs]
    rw [if_neg (not_not_intro hstv)]
    rw [auoc_update_of_key_exists db sid cid date st hstv hen hkey]
    have hall' : ∀ e ∈ rest,
        (findStudent db.users e.1).isSome = true ∧
        validStatuses.contains e.2 = true ∧ isEnrolled db.grades e.1 cid = true ∧
        (db.attendances.map (fun a =>
          if attendanceKeyMatches sid cid date a then { a with status := st } else a)).any
          (attendanceKeyMatches e.1 cid date) = true := by
      intro e he
      obtain ⟨g1, g2, g3, g4⟩ := hall e (List.mem_cons_of_mem _ he)
      rw [any_key_map_status]
      exact ⟨g1, g2, g3, g4⟩
    obtain ⟨db', hloop, hlen, hus, hgr⟩ := ih
      { db with attendances := db.attendances.map (fun a =>
          if attendanceKeyMatches sid cid date a then { a with status := st } else a) }
      c (u + 1) hall'
    refine ⟨db', ?_, ?_, hus, hgr⟩
    · simpa [Nat.add_assoc, Nat.add_comm 1 rest.length] using hloop
    · rw [hlen]
      simp

/-- The compound key of an attendance row. -/
def keyList (l : List AttendanceRec) : List (Nat × Nat × Nat) :=
  l.map (fun a => (a.studentId, a.courseId, a.date))

theorem key_mem_iff_any (l : List AttendanceRec) (sid cid date : Nat) :
    (sid, cid, date) ∈ keyList l ↔ l.any (attendanceKeyMatches sid cid date) = true := by
  simp only [keyList, List.mem_map, List.any_eq_true, attendanceKeyMatches,
    Bool.and_eq_true, beq_iff_eq, Prod.mk.injEq]
  constructor
  · rintro ⟨a, ha, h1, h2, h3⟩
    exact ⟨a, ha, ⟨h1, h2⟩, h3⟩
  · rintro ⟨a, ha, ⟨h1, h2⟩, h3⟩
    exact ⟨a, ha, h1, h2, h3⟩

theorem keyList_map_status (l : List AttendanceRec) (sid cid date : Nat) (st : String) :
    keyList (l.map (fun a =>
      if attendanceKeyMatches sid cid date a then { a with status := st } else a)) =
    keyList l := by
  induction l with
  | nil => rfl
  | cons a t ih =>
    simp only [keyList, List.map_cons] at ih ⊢
    rw [ih]
    congr 1
    by_cases hm : attendanceKeyMatches sid cid date a = true
    · rw [if_pos hm]
    · rw [if_neg hm]

/-- Keys after a successful form batch: nodup keys stay nodup, and every key
either predates the batch or is one of the submitted (student, course, date)
keys. -/
theorem formBatchLoop_key_invariant (cid date : Nat) :
    ∀ (data : List (Nat × String)) (db : DB) (c u : Nat) (db' : DB) (c' u' : Nat),
      formBatchLoop db cid date data c u = .ok db' c' u' →
      (keyList db.attendances).Nodup →
      (keyList db'.attendances).Nodup ∧
      ∀ k ∈ keyList db'.attendances, k ∈ keyList db.attendances ∨
        (k.2.1 = cid ∧ k.2.2 = date ∧ k.1 ∈ data.map Prod.fst) := by
  intro data
  induction data with
  | nil =>
    intro db c u db' c' u' h hnd
    cases h
    exact ⟨hnd, fun k hk => Or.inl hk⟩
  | cons hd rest ih =>
    intro db c u db' c' u' h hnd
    obtain ⟨sid, st⟩ := hd
    unfold formBatchLoop at h
    split at h
    · exact BatchOutcome.noConfusion h
    next stu hfs =>
      split at h
      · exact BatchOutcome.noConfusion h
      next hst =>
        split at h
        · exact BatchOutcome.noConfusion h
        next db'' c? hauoc =>
          obtain ⟨hus, hgr, hstv, hen, hbranch⟩ :=
            auoc_ok_facts db sid cid date st db'' c? hauoc
          have hrec : formBatchLoop db'' cid date rest (if c? then c + 1 else c)
              (if c? then u else u + 1) = .ok db' c' u' := by
            cases c? with
            | false => simpa using h
            | true => simpa using h
          have hkeys : (keyList db''.attendances).Nodup ∧
              (keyList db''.attendances = keyList db.attendances ∨
               keyList db''.attendances = keyList db.attendances ++ [(sid, cid, date)]) := by
            rcases hbranch with ⟨-, -, hatt⟩ | ⟨-, hnk, hatt⟩
            · rw [hatt, keyList_map_status]
              exact ⟨hnd, Or.inl rfl⟩
            · rw [hatt]
              have hne : (sid, cid, date) ∉ keyList db.attendances := by
                rw [key_mem_iff_any, hnk]
                simp
              constructor
              · show (keyList (db.attendances ++ [⟨sid, cid, date, st⟩])).Nodup
                have : keyList (db.attendances ++ [⟨sid, cid, date, st⟩]) =
                    keyList db.attendances ++ [(sid, cid, date)] := by
                  simp [keyList]
                rw [this, List.nodup_append]
                exact ⟨hnd, List.nodup_singleton _, by
                  intro k hk hk'
                  simp only [List.mem_singleton] at hk'
                  subst hk'
                  exact hne hk⟩
              · right
                simp [keyList]
          obtain ⟨ihnd, ihmem⟩ := ih db'' _ _ db' c' u' hrec hkeys.1
          refine ⟨ihnd, ?_⟩
          intro k hk
          rcases ihmem k hk with hold | ⟨h1, h2, h3⟩
          · rcases hkeys.2 with heq | heq
            · rw [heq] at hold
              exact Or.inl hold
            · rw [heq] at hold
              rcases List.mem_append.mp hold with hmem | hsing
              · exact Or.inl hmem
              · simp only [List.mem_singleton] at hsing
                subst hsing
                exact Or.inr ⟨rfl, rfl, by simp⟩
          · exact Or.inr ⟨h1, h2, by simp [h3]⟩

/-- C4: when the attendance table starts empty, a successful bulk upsert
followed by an identical re-run creates no new rows: the second run returns
success with `created = 0` and every entry counted as updated, the row count
does not change, and it never exceeds the number of distinct student keys
submitted. -/
theorem attendance_upsert_idempotent_second_run
    (db : DB) (cid date : Nat) (data : List (Nat × String))
    (hempty : db.attendances = [])
    (hok : (save_attendance db cid date data).1.success = true) :
    (save_attendance (save_attendance db cid date data).2 cid date data).1 =
      ⟨true, 0, data.length, none⟩ ∧
    (save_attendance (save_attendance db cid date data).2 cid date data).2.attendances.length =
      (save_attendance db cid date data).2.attendances.length ∧
    (save_attendance db cid date data).2.attendances.length ≤
      (data.map Prod.fst).dedup.length := by
  unfold save_attendance at hok ⊢
  cases hloop : formBatchLoop db cid date data 0 0 with
  | err msg c' u' => rw [hloop] at hok; simp at hok
  | ok db1 c1 u1 =>
    dsimp only
    obtain ⟨hus, hgr, -, hchecks⟩ :=
      formBatchLoop_ok_invariants cid date data db 0 0 db1 c1 u1 hloop
    have hchecks1 : ∀ e ∈ data, (findStudent db1.users e.1).isSome = true ∧
        validStatuses.contains e.2 = true ∧ isEnrolled db1.grades e.1 cid = true ∧
        db1.attendances.any (attendanceKeyMatches e.1 cid date) = true := by
      intro e he
      obtain ⟨g1, g2, g3, g4⟩ := hchecks e he
      rw [hus, hgr]
      exact ⟨g1, g2, g3, g4⟩
    obtain ⟨db2, hloop2, hlen2, -, -⟩ :=
      formBatchLoop_all_update cid date data db1 0 0 hchecks1
    rw [hloop2]
    obtain ⟨-, hmem⟩ := formBatchLoop_key_invariant cid date data db 0 0 db1 c1 u1 hloop
      (by rw [hempty]; exact List.nodup_nil)
    have hmem' : ∀ k ∈ keyList db1.attendances,
        k.2.1 = cid ∧ k.2.2 = date ∧ k.1 ∈ data.map Prod.fst := by
      intro k hk
      rcases hmem k hk with hin | hgood
      · rw [hempty] at hin
        simp [keyList] at hin
      · exact hgood
    refine ⟨by simp, by simp [hlen2], ?_⟩
    have hnd1 : (keyList db1.attendances).Nodup :=
      (formBatchLoop_key_invariant cid date data db 0 0 db1 c1 u1 hloop
        (by rw [hempty]; exact List.nodup_nil)).1
    have hndfst : ((keyList db1.attendances).map Prod.fst).Nodup := by
      refine List.Nodup.map_on ?_ hnd1
      intro x hx y hy hxy
      obtain ⟨hx1, hx2, -⟩ := hmem' x hx
      obtain ⟨hy1, hy2, -⟩ := hmem' y hy
      obtain ⟨xa, xb, xc⟩ := x
      obtain ⟨ya, yb, yc⟩ := y
      simp only at hx1 hx2 hy1 hy2 hxy
      subst hxy hx1 hx2
      simp [hy1, hy2]
    have hsub : ((keyList db1.attendances).map Prod.fst) ⊆ (data.map Prod.fst).dedup := by
      intro s hs
      obtain ⟨k, hk, rfl⟩ := List.mem_map.mp hs
      exact List.mem_dedup.mpr (hmem' k hk).2.2
    have hle := (hndfst.subperm hsub).length_le
    simpa [keyList] using hle

/-- Store with two enrolled students and no attendance yet. -/
def idemDB : DB :=
  ⟨[⟨1, "student"⟩, ⟨2, "student"⟩], [⟨1, 2, 3, 80, 0, 0⟩, ⟨2, 2, 3, 70, 0, 0⟩],
   [], [], [], []⟩

theorem attendance_upsert_idempotent_second_run_witness :
    idemDB.attendances = [] ∧
    (save_attendance idemDB 2 7 [(1, "Present"), (2, "Late")]).1.success = true ∧
    (save_attendance (save_attendance idemDB 2 7 [(1, "Present"), (2, "Late")]).2 2 7
        [(1, "Present"), (2, "Late")]).1 = ⟨true, 0, 2, none⟩ ∧
    (save_attendance idemDB 2 7 [(1, "Present"), (2, "Late")]).2.attendances.length ≤ 2 := by
  have h := attendance_upsert_idempotent_second_run idemDB 2 7
    [(1, "Present"), (2, "Late")] rfl (by decide)
  exact ⟨rfl, by decide, h.1, by simpa using h.2.2⟩

theorem auoc_create_of_key_absent (db : DB) (sid cid date : Nat) (st : String)
    (hst : validStatuses.contains st = true) (hen : isEnrolled db.grades sid cid = true)
    (hkey : db.attendances.any (attendanceKeyMatches sid cid date) = false) :
    attendanceUpdateOrCreate db sid cid date st =
      .ok ({ db with attendances := db.attendances ++ [⟨sid, cid, date, st⟩] }, true) := by
  unfold attendanceUpdateOrCreate
  rw [if_neg (not_not_intro hst), if_neg (by simp [hen]), if_neg (by simp [hkey])]

theorem syncBatchLoop_cons_none (db : DB) (cid date : Nat) (st : String)
    (rest : List (Option Nat × String)) (c u : Nat) :
    syncBatchLoop db cid date ((none, st) :: rest) c u =
      syncBatchLoop db cid date rest c u := rfl

theorem syncBatchLoop_cons_invalid (db : DB) (cid date sid : Nat) (st : String)
    (rest : List (Option Nat × String)) (c u : Nat)
    (hst : validStatuses.contains st = false) :
    syncBatchLoop db cid date ((some sid, st) :: rest) c u =
      syncBatchLoop db cid date rest c u := by
  conv_lhs => unfold syncBatchLoop
  dsimp only
  rw [if_pos (by rw [hst]; simp)]

theorem syncBatchLoop_cons_nostudent (db : DB) (cid date sid : Nat) (st : String)
    (rest : List (Option Nat × String)) (c u : Nat)
    (hst : validStatuses.contains st = true) (hfs : findStudent db.users sid = none) :
    syncBatchLoop db cid date ((some sid, st) :: rest) c u =
      syncBatchLoop db cid date rest c u := by
  conv_lhs => unfold syncBatchLoop
  dsimp only
  rw [if_neg (not_not_intro hst), hfs]

theorem syncBatchLoop_cons_err (db : DB) (cid date sid : Nat) (st : String)
    (rest : List (Option Nat × String)) (c u : Nat) (stu : UserRec) (e : String)
    (hst : validStatuses.contains st = true) (hfs : findStudent db.users sid = some stu)
    (hauoc : attendanceUpdateOrCreate db sid cid date st = .error e) :
    syncBatchLoop db cid date ((some sid, st) :: rest) c u = .err e c u := by
  conv_lhs => unfold syncBatchLoop
  dsimp only
  rw [if_neg (not_not_intro hst), hfs, hauoc]

theorem syncBatchLoop_cons_process (db : DB) (cid date sid : Nat) (st : String)
    (rest : List (Option Nat × String)) (c u : Nat) (stu : UserRec) (db' : DB) (c? : Bool)
    (hst : validStatuses.contains st = true) (hfs : findStudent db.users sid = some stu)
    (hauoc : attendanceUpdateOrCreate db sid cid date st = .ok (db', c?)) :
    syncBatchLoop db cid date ((some sid, st) :: rest) c u =
      syncBatchLoop db' cid date rest (if c? then c + 1 else c) (if c? then u else u + 1) := by
  conv_lhs => unfold syncBatchLoop
  dsimp only
  rw [if_neg (not_not_intro hst), hfs, hauoc]
  cases c? <;> rfl

/-- Skipping is exactly filtering: the sync loop behaves identically on the
raw entry list and on the sublist of valid entries. -/
theorem syncBatchLoop_filter_valid (cid date : Nat) :
    ∀ (data : List (Option Nat × String)) (db : DB) (c u : Nat),
      syncBatchLoop db cid date data c u =
        syncBatchLoop db cid date (data.filter (syncEntryValid db.users)) c u := by
  intro data
  induction data with
  | nil => intro db c u; rfl
  | cons hd rest ih =>
    intro db c u
    obtain ⟨sidStr, st⟩ := hd
    cases sidStr with
    | none =>
      have hval : syncEntryValid db.users (none, st) = false := rfl
      rw [syncBatchLoop_cons_none, List.filter_cons_of_neg (by simp [hval])]
      exact ih db c u
    | some sid =>
      by_cases hstv : validStatuses.contains st = true
      · cases hfs : findStudent db.users sid with
        | none =>
          have hval : syncEntryValid db.users (some sid, st) = false := by
            unfold syncEntryValid
            dsimp only
            rw [hfs]
            simp
          rw [syncBatchLoop_cons_nostudent db cid date sid st rest c u hstv hfs,
            List.filter_cons_of_neg (by simp [hval])]
          exact ih db c u
        | some stu =>
          have hvalid : syncEntryValid db.users (some sid, st) = true := by
            unfold syncEntryValid
            dsimp only
            rw [hstv, hfs]
            rfl
          rw [List.filter_cons_of_pos hvalid]
          cases hauoc : attendanceUpdateOrCreate db sid cid date st with
          | error e =>
            rw [syncBatchLoop_cons_err db cid date sid st rest c u stu e hstv hfs hauoc,
              syncBatchLoop_cons_err db cid date sid st
                (rest.filter (syncEntryValid db.users)) c u stu e hstv hfs hauoc]
          | ok pr =>
            obtain ⟨db', c?⟩ := pr
            obtain ⟨hus, -, -⟩ := auoc_ok_facts db sid cid date st db' c? hauoc
            rw [syncBatchLoop_cons_process db cid date sid st rest c u stu db' c? hstv hfs hauoc,
              syncBatchLoop_cons_process db cid date sid st
                (rest.filter (syncEntryValid db.users)) c u stu db' c? hstv hfs hauoc,
              ih db' _ _, hus]
      · have hst' : validStatuses.contains st = false := by
          cases hb : validStatuses.contains st
          · rfl
          · exact absurd hb hstv
        have hval : syncEntryValid db.users (some sid, st) = false := by
          unfold syncEntryValid
          dsimp only
          rw [hst']
          rfl
        rw [syncBatchLoop_cons_invalid db cid date sid st rest c u hst',
          List.filter_cons_of_neg (by simp [hval])]
        exact ih db c u

/-- Enrollment side-condition for an entry: the only write-time error the
sync loop can hit is the enrollment `ValidationError`. -/
def syncEntryEnrolled (grades : List GradeRec) (cid : Nat) (e : Option Nat × String) : Bool :=
  match e.1 with
  | none => true
  | some sid => isEnrolled grades sid cid

theorem syncBatchLoop_ok_of_enrolled (cid date : Nat) :
    ∀ (data : List (Option Nat × String)) (db : DB) (c u : Nat),
      (∀ e ∈ data, syncEntryValid db.users e = true →
        syncEntryEnrolled db.grades cid e = true) →
      ∃ db' c' u', syncBatchLoop db cid date data c u = .ok db' c' u' ∧
        c' + u' = c + u + (data.filter (syncEntryValid db.users)).length := by
  intro data
  induction data with
  | nil => intro db c u _; exact ⟨db, c, u, rfl, by simp⟩
  | cons hd rest ih =>
    intro db c u henr
    obtain ⟨sidStr, st⟩ := hd
    have henr' : ∀ e ∈ rest, syncEntryValid db.users e = true →
        syncEntryEnrolled db.grades cid e = true :=
      fun e he => henr e (List.mem_cons_of_mem _ he)
    cases sidStr with
    | none =>
      have hval : syncEntryValid db.users (none, st) = false := rfl
      rw [syncBatchLoop_cons_none, List.filter_cons_of_neg (by simp [hval])]
      exact ih db c u henr'
    | some sid =>
      by_cases hstv : validStatuses.contains st = true
      · cases hfs : findStudent db.users sid with
        | none =>
          have hval : syncEntryValid db.users (some sid, st) = false := by
            unfold syncEntryValid
            dsimp only
            rw [hfs]
            simp
          rw [syncBatchLoop_cons_nostudent db cid date sid st rest c u hstv hfs,
            List.filter_cons_of_neg (by simp [hval])]
          exact ih db c u henr'
        | some stu =>
          have hvalid : syncEntryValid db.users (some sid, st) = true := by
            unfold syncEntryValid
            dsimp only
            rw [hstv, hfs]
            rfl
          have hen : isEnrolled db.grades sid cid = true := by
            have := henr (some sid, st) (List.mem_cons_self _ _) hvalid
            simpa [syncEntryEnrolled] using this
          rw [List.filter_cons_of_pos hvalid]
          by_cases hkey : db.attendances.any (attendanceKeyMatches sid cid date) = true
          · have hauoc := auoc_update_of_key_exists db sid cid date st hstv hen hkey
            rw [syncBatchLoop_cons_process db cid date sid st rest c u stu _ false
              hstv hfs hauoc]
            obtain ⟨db', c', u', hloop, hcount⟩ := ih
              { db with attendances := db.attendances.map (fun a =>
                  if attendanceKeyMatches sid cid date a then { a with status := st }
                  else a) } c (u + 1) henr'
            refine ⟨db', c', u', by simpa using hloop, ?_⟩
            rw [hcount]
            simp [Nat.add_assoc, Nat.add_comm 1]
          · have hkey' : db.attendances.any (attendanceKeyMatches sid cid date) = false := by
              cases hb : db.attendances.any (attendanceKeyMatches sid cid date)
              · rfl
              · exact absurd hb hkey
            have hauoc := auoc_create_of_key_absent db sid cid date st hstv hen hkey'
            rw [syncBatchLoop_cons_process db cid date sid st rest c u stu _ true
              hstv hfs hauoc]
            obtain ⟨db', c', u', hloop, hcount⟩ := ih
              { db with attendances := db.attendances ++ [⟨sid, cid, date, st⟩] }
              (c + 1) u henr'
            refine ⟨db', c', u', by simpa using hloop, ?_⟩
            rw [hcount]
            simp [Nat.add_assoc, Nat.add_comm 1]
      · have hst' : validStatuses.contains st = false := by
          cases hb : validStatuses.contains st
          · rfl
          · exact absurd hb hstv
        have hval : syncEntryValid db.users (some sid, st) = false := by
          unfold syncEntryValid
          dsimp only
          rw [hst']
          rfl
        rw [syncBatchLoop_cons_invalid db cid date sid st rest c u hst',
          List.filter_cons_of_neg (by simp [hval])]
        exact ih db c u henr'

/-- C8: in `sync_attendance_api`, entries whose student id does not parse or
resolve to a student, or whose status is invalid, are silently skipped:
(provided the resolvable entries are enrolled, so no write raises) the
endpoint behaves exactly as if it had been called on the valid sublist, all
valid entries are applied, the created/updated counts add up to the number
of valid entries and the response reports success. -/
theorem sync_api_skips_invalid_entries_and_applies_valid
    (db : DB) (cid date : Nat) (data : List (Option Nat × String))
    (henr : ∀ e ∈ data, syncEntryValid db.users e = true →
      syncEntryEnrolled db.grades cid e = true) :
    (∃ c u, (sync_attendance_api db cid date data).1 = .success c u ∧
      c + u = (data.filter (syncEntryValid db.users)).length) ∧
    sync_attendance_api db cid date data =
      sync_attendance_api db cid date (data.filter (syncEntryValid db.users)) := by
  obtain ⟨db', c', u', hloop, hcount⟩ := syncBatchLoop_ok_of_enrolled cid date data db 0 0 henr
  constructor
  · unfold sync_attendance_api
    rw [hloop]
    exact ⟨c', u', rfl, by simpa using hcount⟩
  · unfold sync_attendance_api
    rw [syncBatchLoop_filter_valid cid date data db 0 0]

/-- Store for the sync witness: students 1 and 2 enrolled in course 2. -/
def syncDB : DB :=
  ⟨[⟨1, "student"⟩, ⟨2, "student"⟩, ⟨3, "instructor"⟩],
   [⟨1, 2, 3, 80, 0, 0⟩, ⟨2, 2, 3, 70, 0, 0⟩], [], [], [], []⟩

theorem sync_api_skips_invalid_entries_and_applies_valid_witness :
    (∀ e ∈ [(some 1, "Present"), (none, "Present"), (some 1, "Bogus"),
        (some 9, "Late"), (some 3, "Late"), (some 2, "Late")],
      syncEntryValid syncDB.users e = true →
        syncEntryEnrolled syncDB.grades 2 e = true) ∧
    (∃ c u, (sync_attendance_api syncDB 2 7 [(some 1, "Present"), (none, "Present"),
        (some 1, "Bogus"), (some 9, "Late"), (some 3, "Late"), (some 2, "Late")]).1 =
        .success c u ∧ c + u = 2) := by
  have h := sync_api_skips_invalid_entries_and_applies_valid syncDB 2 7
    [(some 1, "Present"), (none, "Present"), (some 1, "Bogus"), (some 9, "Late"),
     (some 3, "Late"), (some 2, "Late")] (by decide)
  obtain ⟨⟨c, u, hresp, hcount⟩, -⟩ := h
  exact ⟨by decide, c, u, hresp, by rw [hcount]; decide⟩

/-! ## Spec-side formulation of the PO aggregation -/

/-- The spec's `grade(LO)`: the student's score for that LO, 0 if absent. -/
def loScore (studentGrades : List GradeRec) (loId : Nat) : ℚ :=
  match gradeForLO studentGrades loId with
  | some g => (g.score : ℚ)
  | none => 0

/-- The weight a contribution edge adds to `total_weight` (only edges with a
grade count, as in the source). -/
def loWeight (studentGrades : List GradeRec) (cr : ContributionRateRec) : ℚ :=
  match gradeForLO studentGrades cr.loId with
  | some _ => (cr.percentage : ℚ) / 100
  | none => 0

/-- The spec formula: sum over all ContributionRate edges (LO → PO) of
`grade(LO) * (percentage/100)`, 0 for an LO with no grade. -/
def poSpecSum (db : DB) (student : UserRec) (po : ProgramOutcomeRec) : ℚ :=
  ((db.contributionRates.filter (fun cr => cr.poId == po.id)).map (fun cr =>
    loScore (db.grades.filter (fun g => g.studentId == student.id)) cr.loId *
      ((cr.percentage : ℚ) / 100))).sum

def poSpecWeight (db : DB) (student : UserRec) (po : ProgramOutcomeRec) : ℚ :=
  ((db.contributionRates.filter (fun cr => cr.poId == po.id)).map
    (loWeight (db.grades.filter (fun g => g.studentId == student.id)))).sum

theorem poFold_aux (sg : List GradeRec) :
    ∀ (crs : List ContributionRateRec) (acc : ℚ × ℚ),
      crs.foldl (poStep sg) acc =
        (acc.1 + (crs.map (fun cr => loScore sg cr.loId * ((cr.percentage : ℚ) / 100))).sum,
         acc.2 + (crs.map (loWeight sg)).sum) := by
  intro crs
  induction crs with
  | nil => intro acc; simp
  | cons cr rest ih =>
    intro acc
    rw [List.foldl_cons, ih]
    simp only [List.map_cons, List.sum_cons]
    unfold poStep loScore loWeight
    cases hg : gradeForLO sg cr.loId with
    | none => rw [Prod.mk.injEq]; constructor <;> ring
    | some g => rw [Prod.mk.injEq]; constructor <;> ring

theorem poFold_eq (db : DB) (student : UserRec) (po : ProgramOutcomeRec) :
    poFold (db.grades.filter (fun g => g.studentId == student.id))
      (db.contributionRates.filter (fun cr => cr.poId == po.id)) =
      (poSpecSum db student po, poSpecWeight db student po) := by
  unfold poFold poSpecSum poSpecWeight
  rw [poFold_aux]
  simp

theorem loScore_nonneg (sg : List GradeRec) (loId : Nat)
    (hsc : ∀ g ∈ sg, 0 ≤ g.score) : 0 ≤ loScore sg loId := by
  unfold loScore
  cases hg : gradeForLO sg loId with
  | none => simp
  | some g =>
    have hmem : g ∈ sg := List.mem_of_find?_eq_some hg
    dsimp only
    exact_mod_cast hsc g hmem

theorem poSpecSum_nonneg (db : DB) (student : UserRec) (po : ProgramOutcomeRec)
    (hsc : ∀ g ∈ db.grades, 0 ≤ g.score)
    (hpc : ∀ cr ∈ db.contributionRates, 0 ≤ cr.percentage) :
    0 ≤ poSpecSum db student po := by
  unfold poSpecSum
  apply List.sum_nonneg
  intro x hx
  obtain ⟨cr, hcr, rfl⟩ := List.mem_map.mp hx
  have hcr' : cr ∈ db.contributionRates := (List.mem_filter.mp hcr).1
  have hsc' : ∀ g ∈ db.grades.filter (fun g => g.studentId == student.id), 0 ≤ g.score :=
    fun g hg => hsc g (List.mem_filter.mp hg).1
  have h1 := loScore_nonneg _ cr.loId hsc'
  have h2 : (0 : ℚ) ≤ (cr.percentage : ℚ) / 100 := by
    have := hpc cr hcr'
    positivity
  positivity

theorem poSpecWeight_nonneg (db : DB) (student : UserRec) (po : ProgramOutcomeRec)
    (hpc : ∀ cr ∈ db.contributionRates, 0 ≤ cr.percentage) :
    0 ≤ poSpecWeight db student po := by
  unfold poSpecWeight
  apply List.sum_nonneg
  intro x hx
  obtain ⟨cr, hcr, rfl⟩ := List.mem_map.mp hx
  have hcr' : cr ∈ db.contributionRates := (List.mem_filter.mp hcr).1
  unfold loWeight
  cases gradeForLO (db.grades.filter (fun g => g.studentId == student.id)) cr.loId with
  | none => simp
  | some g =>
    have := hpc cr hcr'
    simp only
    positivity

theorem poSpecSum_eq_zero_of_weight_zero (db : DB) (student : UserRec)
    (po : ProgramOutcomeRec)
    (hpc : ∀ cr ∈ db.contributionRates, 0 ≤ cr.percentage)
    (hw : poSpecWeight db student po = 0) :
    poSpecSum db student po = 0 := by
  unfold poSpecSum
  apply List.sum_eq_zero
  intro x hx
  obtain ⟨cr, hcr, rfl⟩ := List.mem_map.mp hx
  have hcr' : cr ∈ db.contributionRates := (List.mem_filter.mp hcr).1
  unfold loScore
  cases hg : gradeForLO (db.grades.filter (fun g => g.studentId == student.id)) cr.loId with
  | none => simp
  | some g =>
    simp only
    have hterm : loWeight (db.grades.filter (fun g => g.studentId == student.id)) cr =
        (cr.percentage : ℚ) / 100 := by
      unfold loWeight
      rw [hg]
    have hle : loWeight (db.grades.filter (fun g => g.studentId == student.id)) cr ≤
        poSpecWeight db student po := by
      unfold poSpecWeight
      apply List.single_le_sum
      · intro x hx'
        obtain ⟨cr', hcr2, rfl⟩ := List.mem_map.mp hx'
        have hcr2' : cr' ∈ db.contributionRates := (List.mem_filter.mp hcr2).1
        unfold loWeight
        cases gradeForLO (db.grades.filter (fun g => g.studentId == student.id)) cr'.loId with
        | none => simp
        | some g' =>
          have := hpc cr' hcr2'
          simp only
          positivity
      · exact List.mem_map_of_mem _ hcr
    rw [hw, hterm] at hle
    have hge : (0 : ℚ) ≤ (cr.percentage : ℚ) / 100 := by
      have := hpc cr hcr'
      positivity
    have : (cr.percentage : ℚ) / 100 = 0 := le_antisymm hle hge
    rw [this, mul_zero]

theorem round1_intCast (n : ℤ) : round1 ((n : ℚ)) = (n : ℚ) := by
  unfold round1
  have h : ((n : ℚ)) * 10 = ((n * 10 : ℤ) : ℚ) := by push_cast; ring
  rw [h, roundHalfEven_intCast]
  push_cast
  ring

/-- C5: for a student, `calculate_po_scores` returns, per Program Outcome,
the unnormalized sum over all contribution edges of
`score(LO) * (percentage/100)` (0 for an LO with no grade), capped at 100,
never below 0, rounded to 2 decimals; a student with no grades gets 0 for
every PO. -/
theorem po_scores_weighted_sum_capped (db : DB) (student : UserRec)
    (hrole : student.role = "student")
    (hsc : ∀ g ∈ db.grades, 0 ≤ g.score)
    (hpc : ∀ cr ∈ db.contributionRates, 0 ≤ cr.percentage) :
    calculate_po_scores db student =
      db.programOutcomes.map (fun po =>
        (po.code, round2 (min (poSpecSum db student po) 100))) ∧
    (∀ p ∈ calculate_po_scores db student, 0 ≤ p.2) ∧
    (db.grades.filter (fun g => g.studentId == student.id) = [] →
      ∀ p ∈ calculate_po_scores db student, p.2 = 0) := by
  have hne : ¬ (student.role ≠ "student") := by simp [hrole]
  have hmap : calculate_po_scores db student =
      db.programOutcomes.map (fun po =>
        (po.code, round2 (min (poSpecSum db student po) 100))) := by
    unfold calculate_po_scores
    rw [if_neg hne]
    apply List.map_congr_left
    intro po hpo
    dsimp only
    rw [poFold_eq]
    by_cases hw : poSpecWeight db student po > 0
    · rw [if_pos hw]
    · rw [if_neg hw]
      have hw0 : poSpecWeight db student po = 0 :=
        le_antisymm (not_lt.mp hw) (poSpecWeight_nonneg db student po hpc)
      rw [poSpecSum_eq_zero_of_weight_zero db student po hpc hw0,
        min_eq_left (by norm_num : (0:ℚ) ≤ 100)]
  refine ⟨hmap, ?_, ?_⟩
  · intro p hp
    rw [hmap] at hp
    obtain ⟨po, hpo, rfl⟩ := List.mem_map.mp hp
    exact round2_nonneg _ (le_min (poSpecSum_nonneg db student po hsc hpc) (by norm_num))
  · intro hnil p hp
    rw [hmap] at hp
    obtain ⟨po, hpo, rfl⟩ := List.mem_map.mp hp
    have hsum : poSpecSum db student po = 0 := by
      unfold poSpecSum
      rw [hnil]
      apply List.sum_eq_zero
      intro x hx
      obtain ⟨cr, hcr, rfl⟩ := List.mem_map.mp hx
      unfold loScore gradeForLO
      simp
    show round2 (min (poSpecSum db student po) 100) = 0
    rw [hsum, min_eq_left (by norm_num : (0:ℚ) ≤ 100)]
    norm_num [round2, roundHalfEven]

/-- Student 1 with Grade(LO 5) = 85 and one edge LO 5 → PO 7 at 40%. -/
def poDB : DB :=
  ⟨[⟨1, "student"⟩], [⟨1, 2, 5, 85, 0, 0⟩], [], [], [⟨7, "PO2"⟩], [⟨5, 7, 40⟩]⟩

def poStudent : UserRec := ⟨1, "student"⟩

theorem po_scores_weighted_sum_capped_witness :
    poStudent.role = "student" ∧
    (∀ g ∈ poDB.grades, 0 ≤ g.score) ∧
    (∀ cr ∈ poDB.contributionRates, 0 ≤ cr.percentage) ∧
    calculate_po_scores poDB poStudent = [("PO2", 34)] := by
  have h := po_scores_weighted_sum_capped poDB poStudent rfl (by decide) (by decide)
  refine ⟨rfl, by decide, by decide, ?_⟩
  rw [h.1]
  have hsum : poSpecSum poDB poStudent ⟨7, "PO2"⟩ = 34 := by
    norm_num [poSpecSum, poDB, poStudent, loScore, gradeForLO]
  show [("PO2", round2 (min (poSpecSum poDB poStudent ⟨7, "PO2"⟩) 100))] = [("PO2", 34)]
  rw [hsum, min_eq_left (by norm_num : (34:ℚ) ≤ 100)]
  norm_num [round2, roundHalfEven]

def mixedAtts : List AttendanceRec :=
  [⟨1, 1, 1, "Present"⟩, ⟨1, 1, 2, "Present"⟩, ⟨1, 1, 3, "Late"⟩, ⟨1, 1, 4, "Absent"⟩]

/-- C6: `calculate_attendance_percentage` is
`(Present + 0.5*Late) / total * 100` rounded to 1 decimal, 0.0 on an empty
input with no division; all-Present gives 100, all-Late gives 50, and
2 Present + 1 Late + 1 Absent gives 62.5. -/
theorem attendance_percentage_formula :
    calculate_attendance_percentage [] = 0 ∧
    (∀ atts : List AttendanceRec, atts ≠ [] →
      calculate_attendance_percentage atts =
        round1 ((((atts.countP (fun a => a.status == "Present")) : ℚ) +
          (1/2) * ((atts.countP (fun a => a.status == "Late")) : ℚ)) /
          (atts.length : ℚ) * 100)) ∧
    (∀ atts : List AttendanceRec, atts ≠ [] → (∀ a ∈ atts, a.status = "Present") →
      calculate_attendance_percentage atts = 100) ∧
    (∀ atts : List AttendanceRec, atts ≠ [] → (∀ a ∈ atts, a.status = "Late") →
      calculate_attendance_percentage atts = 50) ∧
    calculate_attendance_percentage mixedAtts = 62.5 := by
  have hformula : ∀ atts : List AttendanceRec, atts ≠ [] →
      calculate_attendance_percentage atts =
        round1 ((((atts.filter (fun a => a.status == "Present")).length : ℚ) +
          (1/2) * ((atts.filter (fun a => a.status == "Late")).length : ℚ)) /
          (atts.length : ℚ) * 100) := by
    intro atts h
    unfold calculate_attendance_percentage
    rw [if_neg (by simp [List.isEmpty_iff, h])]
  refine ⟨rfl, ?_, ?_, ?_, ?_⟩
  · intro atts h
    rw [hformula atts h]
    simp [List.countP_eq_length_filter]
  · intro atts h hall
    rw [hformula atts h]
    have hfp : atts.filter (fun a => a.status == "Present") = atts :=
      List.filter_eq_self.mpr (fun a ha => by simp [hall a ha])
    have hfl : atts.filter (fun a => a.status == "Late") = [] := by
      rw [List.filter_eq_nil_iff]
      intro a ha
      simp [hall a ha]
    rw [hfp, hfl]
    have hlen : ((atts.length : ℚ)) ≠ 0 := by
      have := List.length_pos.mpr h
      positivity
    have hval : (((atts.length : ℚ)) + (1/2) * ((([] : List AttendanceRec).length : ℚ))) /
        (atts.length : ℚ) * 100 = ((100 : ℤ) : ℚ) := by
      simp only [List.length_nil, Nat.cast_zero, mul_zero, add_zero]
      field_simp
    rw [hval, round1_intCast]
    norm_num
  · intro atts h hall
    rw [hformula atts h]
    have hfp : atts.filter (fun a => a.status == "Present") = [] := by
      rw [List.filter_eq_nil_iff]
      intro a ha
      simp [hall a ha]
    have hfl : atts.filter (fun a => a.status == "Late") = atts :=
      List.filter_eq_self.mpr (fun a ha => by simp [hall a ha])
    rw [hfp, hfl]
    have hlen : ((atts.length : ℚ)) ≠ 0 := by
      have := List.length_pos.mpr h
      positivity
    have hval : (((([] : List AttendanceRec).length : ℚ)) +
        (1/2) * ((atts.length : ℚ))) / (atts.length : ℚ) * 100 = ((50 : ℤ) : ℚ) := by
      simp only [List.length_nil, Nat.cast_zero, zero_add]
      field_simp
      ring
    rw [hval, round1_intCast]
    norm_num
  · rw [hformula mixedAtts (by simp [mixedAtts])]
    have hp : (mixedAtts.filter (fun a => a.status == "Present")).length = 2 := by decide
    have hl : (mixedAtts.filter (fun a => a.status == "Late")).length = 1 := by decide
    have hn : mixedAtts.length = 4 := by decide
    rw [hp, hl, hn]
    norm_num [round1, roundHalfEven]

theorem attendance_percentage_formula_witness :
    ([⟨1, 1, 1, "Late"⟩] : List AttendanceRec) ≠ [] ∧
    calculate_attendance_percentage [⟨1, 1, 1, "Late"⟩] = 50 :=
  ⟨by simp, attendance_percentage_formula.2.2.2.1 [⟨1, 1, 1, "Late"⟩] (by simp)
    (by intro a ha; simp at ha; rw [ha])⟩
